import Mathlib

/-!
Eugene-Usachev/logger: a shallow embedding.

The development follows the Go sources `helper.go`, `builder.go`,
`standardLogger.go` and `fastLogger.go`.

Conventions of the embedding.

* A Go `[]byte` or `string` is a `List Byte`; only the visible bytes
  (indices below `len`) are kept.
* The process-wide `Now` cell is passed to every operation as the value
  `now` that `Now.Load()` returns at that call.
* A Go panic is the `Except.error` branch of the operation.
* Writes to `io.Writer`s are recorded as a list of events; how a writer
  reacts to a write is given by an environment.
* A call is one atomic step: this is what the per-channel mutex provides.
  Between two calls of a sequential run every mutex is free, so the mutexes
  are not fields of the logger state; `Flush` tracks the mutex it holds,
  since its recover handler unlocks four of them.
-/

/-- One byte of a Go byte slice or string. -/
abbrev Byte := UInt8

/-- The line feed that the loggers append. -/
def LF : Byte := 10

/-- Bytes of an ASCII string literal, used to write down concrete inputs. -/
def ascii (s : String) : List Byte := s.toList.map (fun c => c.toNat.toUInt8)

/-- Values a Go panic can carry in this program. -/
inductive PanicValue where
  /-- failed type assertion `args[i].(string)` in the default case of addArgsToLog -/
  | typeAssertion
  /-- slice bounds out of range in `record.rec[:19]` -/
  | sliceBounds
  /-- call of a nil function value -/
  | nilFunc
  /-- a value some writer or callback panicked with -/
  | custom (code : Nat)
  deriving DecidableEq, Repr

/-! ## strconv (Go standard library), base 10 -/

/-- ASCII digit of a value below ten. -/
def digitByte (d : Nat) : Byte := (48 + d % 10).toUInt8

/-- Decimal digits of `n`, most significant first, placed in front of `acc`. -/
def decimalAux : Nat → Nat → List Byte → List Byte
  | 0, _, acc => acc
  | fuel + 1, n, acc =>
    if n / 10 = 0 then digitByte n :: acc
    else decimalAux fuel (n / 10) (digitByte n :: acc)

/-- Minimal decimal text of a natural number (`strconv.FormatUint(n, 10)`). -/
def formatUint (n : Nat) : List Byte := decimalAux (n + 1) n []

/-- Minimal decimal text of an integer (`strconv.FormatInt(i, 10)`). -/
def formatInt (i : Int) : List Byte :=
  if i < 0 then 45 :: formatUint i.natAbs else formatUint i.natAbs

/-- The call `strconv.AppendUint(buf, n, 10)`. -/
def AppendUint (buf : List Byte) (n : Nat) : List Byte := buf ++ formatUint n

/-- The call `strconv.AppendInt(buf, i, 10)`. -/
def AppendInt (buf : List Byte) (i : Int) : List Byte := buf ++ formatInt i

/-- The call `strconv.AppendBool(buf, b)`. -/
def AppendBool (buf : List Byte) (b : Bool) : List Byte :=
  buf ++ (if b then ascii "true" else ascii "false")

/-! ## helper.go -/

/-- A floating-point or complex argument. Floating point is not modelled:
the value is represented by the text that `strconv.AppendFloat(_, v, 'f', -1, 64)`
(or `strconv.FormatComplex(v, 'f', -1, 64)`) produces for it. -/
structure FloatText where
  text : List Byte
  deriving DecidableEq, Repr

/-- The dynamic value of one `interface{}` argument of a logging call.
Integer arguments carry their mathematical value. -/
inductive Arg where
  | string (s : List Byte)
  | int8 (v : Int)
  | int16 (v : Int)
  | int32 (v : Int)
  | int (v : Int)
  | int64 (v : Int)
  | uint (v : Nat)
  | uint8 (v : Nat)
  | uint16 (v : Nat)
  | uint32 (v : Nat)
  | uint64 (v : Nat)
  | float32 (v : FloatText)
  | float64 (v : FloatText)
  | bool (b : Bool)
  | complex64 (v : FloatText)
  | complex128 (v : FloatText)
  | bytes (b : List Byte)
  | uintptr (v : Nat)
  /-- any other dynamic type (a struct, an error, a nil interface, ...) -/
  | other
  deriving DecidableEq, Repr

/-- The dynamic type is one of the cases the type switch of addArgsToLog names. -/
def Arg.supported : Arg → Bool
  | .other => false
  | _ => true

/-- The function `addArgsToLog` of helper.go: a loop over the arguments with a
type switch; the default case asserts `args[i].(string)`, which panics because
a string has already been taken by the first case. -/
def addArgsToLog (buf : List Byte) : List Arg → Except PanicValue (List Byte)
  | [] => .ok buf
  | a :: rest =>
    match a with
    | .string s => addArgsToLog (buf ++ s) rest
    | .int8 v => addArgsToLog (AppendInt buf v) rest
    | .int16 v => addArgsToLog (AppendInt buf v) rest
    | .int32 v => addArgsToLog (AppendInt buf v) rest
    | .int v => addArgsToLog (AppendInt buf v) rest
    | .int64 v => addArgsToLog (AppendInt buf v) rest
    | .uint v => addArgsToLog (AppendUint buf v) rest
    | .uint8 v => addArgsToLog (AppendUint buf v) rest
    | .uint16 v => addArgsToLog (AppendUint buf v) rest
    | .uint32 v => addArgsToLog (AppendUint buf v) rest
    | .uint64 v => addArgsToLog (AppendUint buf v) rest
    | .float32 v => addArgsToLog (buf ++ v.text) rest
    | .float64 v => addArgsToLog (buf ++ v.text) rest
    | .bool b => addArgsToLog (AppendBool buf b) rest
    | .complex64 v => addArgsToLog (buf ++ v.text) rest
    | .complex128 v => addArgsToLog (buf ++ v.text) rest
    | .bytes b => addArgsToLog (buf ++ b) rest
    | .uintptr v => addArgsToLog (AppendUint buf v) rest
    | .other => .error .typeAssertion

/-! ## builder.go -/

/-- The struct `Record` of builder.go. The field `pfx` is the Go field
`prefix` (`none` is the nil slice) and `recBytes` is the Go field `rec`
(a structure field cannot be called `rec`); it holds the visible bytes. -/
structure Record where
  pfx : Option (List Byte)
  isShowDate : Bool
  isNewLine : Bool
  recBytes : List Byte
  wasGot : Bool
  wasPrepare : Bool
  deriving DecidableEq, Repr

/-- The constructor `NewBuilder` of builder.go. -/
def NewBuilder : Record :=
  { pfx := none, isShowDate := true, isNewLine := true, recBytes := [],
    wasGot := false, wasPrepare := false }

/-- The method `Record.Prefix`. -/
def Record.Prefix (r : Record) (p : List Byte) : Record := { r with pfx := some p }

/-- The method `Record.ShowDate`. -/
def Record.ShowDate (r : Record) : Record := { r with isShowDate := true }

/-- The method `Record.NoDate`. -/
def Record.NoDate (r : Record) : Record := { r with isShowDate := false }

/-- The method `Record.AppendArgs`. -/
def Record.AppendArgs (r : Record) (args : List Arg) : Except PanicValue Record :=
  match addArgsToLog r.recBytes args with
  | .ok b => .ok { r with recBytes := b }
  | .error e => .error e

/-- The method `Record.AppendFormat`; `text` is the result of `fmt.Sprintf`. -/
def Record.AppendFormat (r : Record) (text : List Byte) : Record :=
  { r with recBytes := r.recBytes ++ text }

/-- The method `Record.NewLine`. -/
def Record.NewLine (r : Record) (flag : Bool) : Record := { r with isNewLine := flag }

/-- The method `Record.Build` (builder.go 70-82): the prefix, when not nil,
is put in front of `rec`; then the timestamp, when `isShowDate`; then a line
feed is appended, when `isNewLine`; `wasPrepare` is set. The flag `wasPrepare`
is not tested. -/
def Record.Build (now : List Byte) (r : Record) : Record :=
  let r := match r.pfx with
    | some p => { r with recBytes := p ++ r.recBytes }
    | none => r
  let r := if r.isShowDate then { r with recBytes := now ++ r.recBytes } else r
  let r := if r.isNewLine then { r with recBytes := r.recBytes ++ [LF] } else r
  { r with wasPrepare := true }

/-- The method `Record.Prepare` (builder.go 85-100): returns at once when
`wasPrepare` is set, and otherwise does the steps of Build. -/
def Record.Prepare (now : List Byte) (r : Record) : Record :=
  if r.wasPrepare then r
  else
    let r := match r.pfx with
      | some p => { r with recBytes := p ++ r.recBytes }
      | none => r
    let r := if r.isShowDate then { r with recBytes := now ++ r.recBytes } else r
    let r := if r.isNewLine then { r with recBytes := r.recBytes ++ [LF] } else r
    { r with wasPrepare := true }

/-- The method `Record.Reset` (builder.go 102-107). -/
def Record.Reset (r : Record) : Record :=
  { r with recBytes := [], isShowDate := true, isNewLine := true, wasPrepare := false }

/-! ## standardLogger.go -/

/-- Identity of an `io.Writer` handed to the configuration. -/
abbrev WriterId := Nat

/-- Where a write goes: the console (`os.Stderr`) or a configured writer. -/
inductive Target where
  | console
  | writer (id : WriterId)
  deriving DecidableEq, Repr

/-- What a call of `Write` does: the bytes are taken, or an error is returned
(and ignored by the logger), or the writer panics. -/
inductive WriteOutcome where
  | written
  | failed
  | panics (v : PanicValue)
  deriving DecidableEq, Repr

/-- Behaviour of the writers of one run. -/
structure Env where
  write : Target → List Byte → WriteOutcome

/-- Observable actions of the loggers: a call of `Write` on a target, and a
call of the fatal callback with the recovered panic value. -/
inductive Event where
  | write (t : Target) (data : List Byte)
  | fatalFunc (reason : PanicValue)
  deriving DecidableEq, Repr

/-- The struct `StandardLoggerConfig`; a nil writer is `none`. -/
structure StandardLoggerConfig where
  IsWritingToTheConsole : Bool
  ErrorWriter : Option WriterId
  WarningWriter : Option WriterId
  InfoWriter : Option WriterId
  SuccessWriter : Option WriterId
  FatalWriter : Option WriterId
  RecordWriter : Option WriterId
  RawWriter : Option WriterId
  ShowDate : Bool
  deriving DecidableEq, Repr

/-- The struct `StandardLogger`; `console` is true when the field is not nil. -/
structure StandardLogger where
  console : Bool
  errorWriter : Option WriterId
  fatalWriter : Option WriterId
  warningWriter : Option WriterId
  infoWriter : Option WriterId
  successWriter : Option WriterId
  recordWriter : Option WriterId
  rawWriter : Option WriterId
  showDate : Bool
  deriving DecidableEq, Repr

/-- The value the refresher task of NewStandardLogger stores into `Now` for a
wall-clock reading (standardLogger.go 79-97). -/
def refreshNow (year month day hour min sec : Int) : List Byte :=
  let buf : List Byte := []
  let buf := AppendInt buf year
  let buf := buf ++ [47]
  let buf := AppendInt buf month
  let buf := buf ++ [47]
  let buf := AppendInt buf day
  let buf := buf ++ [32]
  let buf := AppendInt buf hour
  let buf := buf ++ [58]
  let buf := AppendInt buf min
  let buf := buf ++ [58]
  let buf := if sec < 10 then buf ++ [48] else buf
  let buf := AppendInt buf sec
  buf ++ [32]

/-- The logger that `NewStandardLogger` returns (standardLogger.go 57-71, 102). -/
def NewStandardLogger (cfg : StandardLoggerConfig) : StandardLogger :=
  { console := cfg.IsWritingToTheConsole,
    errorWriter := cfg.ErrorWriter,
    warningWriter := cfg.WarningWriter,
    infoWriter := cfg.InfoWriter,
    successWriter := cfg.SuccessWriter,
    fatalWriter := cfg.FatalWriter,
    recordWriter := cfg.RecordWriter,
    rawWriter := cfg.RawWriter,
    showDate := cfg.ShowDate }

/-- Whether `NewStandardLogger` starts a refresher task: the test
`len(Now.Load().([]byte)) == 0` of standardLogger.go 73. -/
def NewStandardLogger.startsRefresher (now : List Byte) : Bool := now.length == 0

/-- One call `w.Write(buf)`: the event, and the panic value if the writer panics. -/
def writeTo (env : Env) (t : Target) (buf : List Byte) : List Event × Option PanicValue :=
  match env.write t buf with
  | .panics v => ([Event.write t buf], some v)
  | _ => ([Event.write t buf], none)

/-- The method `StandardLogger.log` (standardLogger.go 105-112): the console
first, when not nil, then the writer, when not nil. -/
def StandardLogger.log (env : Env) (logger : StandardLogger) (buf : List Byte)
    (writer : Option WriterId) : List Event × Option PanicValue :=
  let (evs1, p1) := if logger.console then writeTo env .console buf else ([], none)
  match p1 with
  | some v => (evs1, some v)
  | none =>
    match writer with
    | some w =>
      let (evs2, p2) := writeTo env (.writer w) buf
      (evs1 ++ evs2, p2)
    | none => (evs1, none)

/-- The method `StandardLogger.info`. -/
def StandardLogger.info (env : Env) (logger : StandardLogger) (buf : List Byte) :=
  logger.log env buf logger.infoWriter

/-- The method `StandardLogger.error`. -/
def StandardLogger.error (env : Env) (logger : StandardLogger) (buf : List Byte) :=
  logger.log env buf logger.errorWriter

/-- The method `StandardLogger.warning`. -/
def StandardLogger.warning (env : Env) (logger : StandardLogger) (buf : List Byte) :=
  logger.log env buf logger.warningWriter

/-- The method `StandardLogger.success`. -/
def StandardLogger.success (env : Env) (logger : StandardLogger) (buf : List Byte) :=
  logger.log env buf logger.successWriter

/-- The method `StandardLogger.record`. -/
def StandardLogger.record (env : Env) (logger : StandardLogger) (buf : List Byte) :=
  logger.log env buf logger.recordWriter

/-- The method `StandardLogger.raw`. -/
def StandardLogger.raw (env : Env) (logger : StandardLogger) (buf : List Byte) :=
  logger.log env buf logger.rawWriter

/-- The method `StandardLogger.Info` (standardLogger.go 172-180): the line
is the timestamp, when showDate is set, the text of the arguments and a line
feed; it is handed to `info` in one piece. -/
def StandardLogger.Info (env : Env) (now : List Byte) (logger : StandardLogger)
    (args : List Arg) : List Event × Option PanicValue :=
  let buf : List Byte := []
  let buf := if logger.showDate then now ++ buf else buf
  match addArgsToLog buf args with
  | .error e => ([], some e)
  | .ok buf => logger.info env (buf ++ [LF])

/-- The method `StandardLogger.Error` (standardLogger.go 203-211). -/
def StandardLogger.Error (env : Env) (now : List Byte) (logger : StandardLogger)
    (args : List Arg) : List Event × Option PanicValue :=
  let buf : List Byte := []
  let buf := if logger.showDate then now ++ buf else buf
  match addArgsToLog buf args with
  | .error e => ([], some e)
  | .ok buf => logger.error env (buf ++ [LF])

/-- The method `StandardLogger.Warning` (standardLogger.go 234-242). -/
def StandardLogger.Warning (env : Env) (now : List Byte) (logger : StandardLogger)
    (args : List Arg) : List Event × Option PanicValue :=
  let buf : List Byte := []
  let buf := if logger.showDate then now ++ buf else buf
  match addArgsToLog buf args with
  | .error e => ([], some e)
  | .ok buf => logger.warning env (buf ++ [LF])

/-- The method `StandardLogger.Success` (standardLogger.go 265-273). -/
def StandardLogger.Success (env : Env) (now : List Byte) (logger : StandardLogger)
    (args : List Arg) : List Event × Option PanicValue :=
  let buf : List Byte := []
  let buf := if logger.showDate then now ++ buf else buf
  match addArgsToLog buf args with
  | .error e => ([], some e)
  | .ok buf => logger.success env (buf ++ [LF])

/-! ## fastLogger.go -/

/-- A fatal callback `func(reason any)`: it returns, or it panics itself (as
the one in the documentation comment of FastLogger does). -/
inductive FatalFunc where
  | returns
  | panics (v : PanicValue)
  deriving DecidableEq, Repr

/-- The struct `FastLoggerConfig`; a nil `FatalFunc` is `none`. -/
structure FastLoggerConfig where
  StandardLoggerConfig : StandardLoggerConfig
  FlushInterval : Nat
  FatalFunc : Option FatalFunc
  deriving DecidableEq, Repr

/-- The struct `FastLogger` without its mutexes. -/
structure FastLogger where
  stdLogger : StandardLogger
  isRunning : Bool
  infoLogs : List Byte
  errorLogs : List Byte
  warningLogs : List Byte
  successLogs : List Byte
  recordLogs : List Byte
  rawLogs : List Byte
  fatalFunc : Option FatalFunc
  deriving DecidableEq, Repr

/-- The six channels, in the order in which Flush visits them. -/
inductive Channel where
  | info | error | warning | success | record | raw
  deriving DecidableEq, Repr

/-- The buffer of a channel. -/
def FastLogger.logs (logger : FastLogger) : Channel → List Byte
  | .info => logger.infoLogs
  | .error => logger.errorLogs
  | .warning => logger.warningLogs
  | .success => logger.successLogs
  | .record => logger.recordLogs
  | .raw => logger.rawLogs

/-- The writer of a channel. -/
def StandardLogger.writerOf (logger : StandardLogger) : Channel → Option WriterId
  | .info => logger.infoWriter
  | .error => logger.errorWriter
  | .warning => logger.warningWriter
  | .success => logger.successWriter
  | .record => logger.recordWriter
  | .raw => logger.rawWriter

/-- The logger that `NewFastLogger` returns (fastLogger.go 66-85); the
background loop it starts calls Flush after every interval. -/
def NewFastLogger (cfg : FastLoggerConfig) : FastLogger :=
  { stdLogger := NewStandardLogger cfg.StandardLoggerConfig,
    isRunning := true,
    infoLogs := [], errorLogs := [], warningLogs := [], successLogs := [],
    recordLogs := [], rawLogs := [],
    fatalFunc := cfg.FatalFunc }

/-- How a call of Flush ends: it returns, a panic leaves it, or the runtime
stops the process (`fatal error: sync: unlock of unlocked mutex`). -/
inductive Exit where
  | returned
  | panicked (v : PanicValue)
  | crashed
  deriving DecidableEq, Repr

/-- Result of Flush: the logger state, the events in order, and the exit. -/
structure FlushResult where
  logger : FastLogger
  events : List Event
  exit : Exit
  deriving DecidableEq, Repr

/-- The call `m.Unlock()` by a goroutine that holds `held` (at most one mutex
is held at any point of Flush): `none` is the fatal error of unlocking a mutex
that is not locked. -/
def unlock (held : Option Channel) (m : Channel) : Option (Option Channel) :=
  if held = some m then some none else none

/-- The deferred function of Flush (fastLogger.go 102-114), entered with the
recovered value `v` while the mutex of channel `held` is locked. -/
def Flush.recover (logger : FastLogger) (evs : List Event) (held : Channel)
    (v : PanicValue) : FlushResult :=
  match logger.fatalFunc with
  | none => ⟨logger, evs, .panicked .nilFunc⟩
  | some f =>
    let evs := evs ++ [Event.fatalFunc v]
    match f with
    | .panics pv => ⟨logger, evs, .panicked pv⟩
    | .returns =>
      let logger := { logger with infoLogs := [] }
      match unlock (some held) .info with
      | none => ⟨logger, evs, .crashed⟩
      | some h1 =>
        let logger := { logger with errorLogs := [] }
        match unlock h1 .error with
        | none => ⟨logger, evs, .crashed⟩
        | some h2 =>
          let logger := { logger with warningLogs := [] }
          match unlock h2 .warning with
          | none => ⟨logger, evs, .crashed⟩
          | some h3 =>
            let logger := { logger with successLogs := [] }
            match unlock h3 .success with
            | none => ⟨logger, evs, .crashed⟩
            | some _ => ⟨logger, evs, .returned⟩

/-- Sixth block of Flush (fastLogger.go 155-162). -/
def Flush.rawBlock (env : Env) (logger : FastLogger) (evs : List Event) : FlushResult :=
  if logger.rawLogs.length > 0 then
    match logger.stdLogger.raw env logger.rawLogs with
    | (es, none) => ⟨{ logger with rawLogs := [] }, evs ++ es, .returned⟩
    | (es, some v) => Flush.recover logger (evs ++ es) .raw v
  else ⟨logger, evs, .returned⟩

/-- Fifth block of Flush (fastLogger.go 147-154). -/
def Flush.recordBlock (env : Env) (logger : FastLogger) (evs : List Event) : FlushResult :=
  if logger.recordLogs.length > 0 then
    match logger.stdLogger.record env logger.recordLogs with
    | (es, none) => Flush.rawBlock env { logger with recordLogs := [] } (evs ++ es)
    | (es, some v) => Flush.recover logger (evs ++ es) .record v
  else Flush.rawBlock env logger evs

/-- Fourth block of Flush (fastLogger.go 139-146). -/
def Flush.successBlock (env : Env) (logger : FastLogger) (evs : List Event) : FlushResult :=
  if logger.successLogs.length > 0 then
    match logger.stdLogger.success env logger.successLogs with
    | (es, none) => Flush.recordBlock env { logger with successLogs := [] } (evs ++ es)
    | (es, some v) => Flush.recover logger (evs ++ es) .success v
  else Flush.recordBlock env logger evs

/-- Third block of Flush (fastLogger.go 131-138). -/
def Flush.warningBlock (env : Env) (logger : FastLogger) (evs : List Event) : FlushResult :=
  if logger.warningLogs.length > 0 then
    match logger.stdLogger.warning env logger.warningLogs with
    | (es, none) => Flush.successBlock env { logger with warningLogs := [] } (evs ++ es)
    | (es, some v) => Flush.recover logger (evs ++ es) .warning v
  else Flush.successBlock env logger evs

/-- Second block of Flush (fastLogger.go 123-130). -/
def Flush.errorBlock (env : Env) (logger : FastLogger) (evs : List Event) : FlushResult :=
  if logger.errorLogs.length > 0 then
    match logger.stdLogger.error env logger.errorLogs with
    | (es, none) => Flush.warningBlock env { logger with errorLogs := [] } (evs ++ es)
    | (es, some v) => Flush.recover logger (evs ++ es) .error v
  else Flush.warningBlock env logger evs

/-- The method `FastLogger.Flush` (fastLogger.go 101-163), starting with the
first block (115-122). -/
def FastLogger.Flush (env : Env) (logger : FastLogger) : FlushResult :=
  if logger.infoLogs.length > 0 then
    match logger.stdLogger.info env logger.infoLogs with
    | (es, none) => Flush.errorBlock env { logger with infoLogs := [] } es
    | (es, some v) => Flush.recover logger es .info v
  else Flush.errorBlock env logger []

/-- The method `FastLogger.Stop`. -/
def FastLogger.Stop (logger : FastLogger) : FastLogger :=
  { logger with isRunning := false }

/-- The method `FastLogger.StopWithoutFlush` (fastLogger.go 171-191): the six
buffers are cut to length zero and the running flag is cleared; the function
calls no writer. -/
def FastLogger.StopWithoutFlush (logger : FastLogger) : FastLogger :=
  { logger with
    infoLogs := [], errorLogs := [], warningLogs := [], successLogs := [],
    recordLogs := [], rawLogs := [], isRunning := false }

/-- The built-in `copy(dst, src)`: the first `min(len(dst), len(src))` bytes of
`dst` are replaced by those of `src`. -/
def copy (dst src : List Byte) : List Byte := src.take dst.length ++ dst.drop src.length

/-- The statement `copy(record.rec[:19], Now.Load().([]byte))` of the Prepare
calls, as seen on the visible bytes of `rec`. The slice expression `rec[:19]`
panics when 19 exceeds the capacity `len(rec) + spare`; the spare capacity is
fixed by the allocator of the Go runtime and is an input here. Bytes between
`len(rec)` and 19 that `copy` writes are not visible in `rec`. -/
def patchTimestamp (now rec : List Byte) (spare : Nat) : Except PanicValue (List Byte) :=
  if rec.length + spare < 19 then .error .sliceBounds
  else .ok (copy (rec.take 19) now ++ rec.drop 19)

/-- The method `FastLogger.Raw` (fastLogger.go 205-209). -/
def FastLogger.Raw (logger : FastLogger) (data : List Byte) : FastLogger :=
  { logger with rawLogs := logger.rawLogs ++ data }

/-- The method `FastLogger.Info` (fastLogger.go 213-221). -/
def FastLogger.Info (now : List Byte) (logger : FastLogger) (args : List Arg) :
    Except PanicValue FastLogger :=
  let logger :=
    if logger.stdLogger.showDate then { logger with infoLogs := logger.infoLogs ++ now }
    else logger
  match addArgsToLog logger.infoLogs args with
  | .error e => .error e
  | .ok b => .ok { logger with infoLogs := b ++ [LF] }

/-- The method `FastLogger.FormatInfo` (fastLogger.go 224-231); `text` is the
result of `fmt.Sprintf(f, args...)`. -/
def FastLogger.FormatInfo (now : List Byte) (logger : FastLogger) (text : List Byte) :
    FastLogger :=
  let logger :=
    if logger.stdLogger.showDate then { logger with infoLogs := logger.infoLogs ++ now }
    else logger
  { logger with infoLogs := logger.infoLogs ++ text }

/-- The method `FastLogger.InfoPrepare` (fastLogger.go 234-241). Returns the
logger and the record, which the call patches in place. -/
def FastLogger.InfoPrepare (now : List Byte) (logger : FastLogger) (record : Record)
    (spare : Nat) : Except PanicValue (FastLogger × Record) :=
  let patched : Except PanicValue Record :=
    if record.isShowDate then
      match patchTimestamp now record.recBytes spare with
      | .error e => .error e
      | .ok b => .ok { record with recBytes := b }
    else .ok record
  match patched with
  | .error e => .error e
  | .ok record => .ok ({ logger with infoLogs := logger.infoLogs ++ record.recBytes }, record)

/-- The method `FastLogger.Error` (fastLogger.go 244-252). -/
def FastLogger.Error (now : List Byte) (logger : FastLogger) (args : List Arg) :
    Except PanicValue FastLogger :=
  let logger :=
    if logger.stdLogger.showDate then { logger with errorLogs := logger.errorLogs ++ now }
    else logger
  match addArgsToLog logger.errorLogs args with
  | .error e => .error e
  | .ok b => .ok { logger with errorLogs := b ++ [LF] }

/-- The method `FastLogger.FormatError` (fastLogger.go 255-262). -/
def FastLogger.FormatError (now : List Byte) (logger : FastLogger) (text : List Byte) :
    FastLogger :=
  let logger :=
    if logger.stdLogger.showDate then { logger with errorLogs := logger.errorLogs ++ now }
    else logger
  { logger with errorLogs := logger.errorLogs ++ text }

/-- The method `FastLogger.ErrorPrepare` (fastLogger.go 265-272). -/
def FastLogger.ErrorPrepare (now : List Byte) (logger : FastLogger) (record : Record)
    (spare : Nat) : Except PanicValue (FastLogger × Record) :=
  let patched : Except PanicValue Record :=
    if record.isShowDate then
      match patchTimestamp now record.recBytes spare with
      | .error e => .error e
      | .ok b => .ok { record with recBytes := b }
    else .ok record
  match patched with
  | .error e => .error e
  | .ok record => .ok ({ logger with errorLogs := logger.errorLogs ++ record.recBytes }, record)

/-- The method `FastLogger.Warning` (fastLogger.go 275-283). -/
def FastLogger.Warning (now : List Byte) (logger : FastLogger) (args : List Arg) :
    Except PanicValue FastLogger :=
  let logger :=
    if logger.stdLogger.showDate then { logger with warningLogs := logger.warningLogs ++ now }
    else logger
  match addArgsToLog logger.warningLogs args with
  | .error e => .error e
  | .ok b => .ok { logger with warningLogs := b ++ [LF] }

/-- The method `FastLogger.FormatWarning` (fastLogger.go 286-293). -/
def FastLogger.FormatWarning (now : List Byte) (logger : FastLogger) (text : List Byte) :
    FastLogger :=
  let logger :=
    if logger.stdLogger.showDate then { logger with warningLogs := logger.warningLogs ++ now }
    else logger
  { logger with warningLogs := logger.warningLogs ++ text }

/-- The method `FastLogger.WarningPrepare` (fastLogger.go 296-303). -/
def FastLogger.WarningPrepare (now : List Byte) (logger : FastLogger) (record : Record)
    (spare : Nat) : Except PanicValue (FastLogger × Record) :=
  let patched : Except PanicValue Record :=
    if record.isShowDate then
      match patchTimestamp now record.recBytes spare with
      | .error e => .error e
      | .ok b => .ok { record with recBytes := b }
    else .ok record
  match patched with
  | .error e => .error e
  | .ok record =>
    .ok ({ logger with warningLogs := logger.warningLogs ++ record.recBytes }, record)

/-- The method `FastLogger.Success` (fastLogger.go 306-314). -/
def FastLogger.Success (now : List Byte) (logger : FastLogger) (args : List Arg) :
    Except PanicValue FastLogger :=
  let logger :=
    if logger.stdLogger.showDate then { logger with successLogs := logger.successLogs ++ now }
    else logger
  match addArgsToLog logger.successLogs args with
  | .error e => .error e
  | .ok b => .ok { logger with successLogs := b ++ [LF] }

/-- The method `FastLogger.FormatSuccess` (fastLogger.go 317-324). -/
def FastLogger.FormatSuccess (now : List Byte) (logger : FastLogger) (text : List Byte) :
    FastLogger :=
  let logger :=
    if logger.stdLogger.showDate then { logger with successLogs := logger.successLogs ++ now }
    else logger
  { logger with successLogs := logger.successLogs ++ text }

/-- The method `FastLogger.SuccessPrepare` (fastLogger.go 327-334). -/
def FastLogger.SuccessPrepare (now : List Byte) (logger : FastLogger) (record : Record)
    (spare : Nat) : Except PanicValue (FastLogger × Record) :=
  let patched : Except PanicValue Record :=
    if record.isShowDate then
      match patchTimestamp now record.recBytes spare with
      | .error e => .error e
      | .ok b => .ok { record with recBytes := b }
    else .ok record
  match patched with
  | .error e => .error e
  | .ok record =>
    .ok ({ logger with successLogs := logger.successLogs ++ record.recBytes }, record)

/-- The method `FastLogger.Record` (fastLogger.go 194-202); `pool` is the
content of `recordPool`. Returns the logger, the record after the call and the
pool. -/
def FastLogger.Record (logger : FastLogger) (record : Record) (pool : List Record) :
    FastLogger × Record × List Record :=
  let logger := { logger with recordLogs := logger.recordLogs ++ record.recBytes }
  let record := record.Reset
  if record.wasGot then (logger, record, record :: pool) else (logger, record, pool)

/-! ## Sequences of logging calls -/

/-- The four severities that have an args, a format and a prepare call. -/
inductive Severity where
  | info | error | warning | success
  deriving DecidableEq, Repr

/-- The channel of a severity. -/
def Severity.channel : Severity → Channel
  | .info => .info
  | .error => .error
  | .warning => .warning
  | .success => .success

/-- One logging call of FastLogger with its arguments: `log` is Info, Error,
Warning or Success; `format` is FormatInfo, ... (with the text that
`fmt.Sprintf` returned); `prepare` is InfoPrepare, ... (with the spare capacity
of the record); `record` is Record and `raw` is Raw. -/
inductive Call where
  | log (sev : Severity) (args : List Arg)
  | format (sev : Severity) (text : List Byte)
  | prepare (sev : Severity) (record : Record) (spare : Nat)
  | record (record : Record)
  | raw (data : List Byte)
  deriving DecidableEq, Repr

/-- The Prepare call of a severity: InfoPrepare, ErrorPrepare, WarningPrepare
or SuccessPrepare. -/
def prepareCall (sev : Severity) (now : List Byte) (logger : FastLogger) (record : Record)
    (spare : Nat) : Except PanicValue (FastLogger × Record) :=
  match sev with
  | .info => logger.InfoPrepare now record spare
  | .error => logger.ErrorPrepare now record spare
  | .warning => logger.WarningPrepare now record spare
  | .success => logger.SuccessPrepare now record spare

/-- The call, made while `Now` holds `now`, on the logger. -/
def Call.apply (now : List Byte) (logger : FastLogger) : Call → Except PanicValue FastLogger
  | .log .info args => logger.Info now args
  | .log .error args => logger.Error now args
  | .log .warning args => logger.Warning now args
  | .log .success args => logger.Success now args
  | .format .info text => .ok (logger.FormatInfo now text)
  | .format .error text => .ok (logger.FormatError now text)
  | .format .warning text => .ok (logger.FormatWarning now text)
  | .format .success text => .ok (logger.FormatSuccess now text)
  | .prepare sev r spare => (prepareCall sev now logger r spare).map Prod.fst
  | .record r => .ok (logger.Record r []).fst
  | .raw data => .ok (logger.Raw data)

/-- A sequential run of calls, each paired with the value of `Now` at the
call; the run ends at the first panic. -/
def runCalls (logger : FastLogger) : List (List Byte × Call) → Except PanicValue FastLogger
  | [] => .ok logger
  | (now, c) :: rest =>
    match c.apply now logger with
    | .error e => .error e
    | .ok logger' => runCalls logger' rest

/-- A buffer that is empty or ends with a line feed. -/
def lineComplete (b : List Byte) : Prop := b = [] ∨ b.getLast? = some LF

instance (b : List Byte) : Decidable (lineComplete b) :=
  inferInstanceAs (Decidable (b = [] ∨ b.getLast? = some LF))

/-! ## Definitions used in the statements -/

/-- The writes that draining one channel is expected to make: none for an
empty buffer; otherwise one write of the whole buffer to the console, when
enabled, and one to the writer of the channel, when configured. -/
def channelWrites (std : StandardLogger) (c : Channel) (buf : List Byte) : List Event :=
  if buf = [] then []
  else
    (if std.console then [Event.write .console buf] else []) ++
      (match std.writerOf c with
       | some w => [Event.write (.writer w) buf]
       | none => [])

/-- The bytes a target has taken in a sequence of events: the data of the
writes to it that the environment accepts, in order. -/
def sinkContent (env : Env) (t : Target) : List Event → List Byte
  | [] => []
  | .write t' d :: rest =>
    if t' = t ∧ env.write t' d = .written then d ++ sinkContent env t rest
    else sinkContent env t rest
  | .fatalFunc _ :: rest => sinkContent env t rest

/-- The logger with its six buffers cut to length zero. -/
def FastLogger.drained (logger : FastLogger) : FastLogger :=
  { logger with
    infoLogs := [], errorLogs := [], warningLogs := [], successLogs := [],
    recordLogs := [], rawLogs := [] }

/-- What a sequence of calls needs for its buffers to stay line-complete: the
text of a format call ends with a line feed; the bytes of a record given to a
Prepare call or to Record, and the data given to Raw, are empty or end with a
line feed; a record with isShowDate given to a Prepare call is longer than the
19 bytes that the call overwrites. Info, Error, Warning and Success need
nothing. -/
def Call.lineTerminated : Call → Prop
  | .log _ _ => True
  | .format _ text => text.getLast? = some LF
  | .prepare _ r _ => lineComplete r.recBytes ∧ (r.isShowDate = true → 19 < r.recBytes.length)
  | .record r => lineComplete r.recBytes
  | .raw data => lineComplete data

/-- A configuration used for concrete runs: ShowDate set, no console, one
writer per channel, no fatal callback. -/
def exampleConfig : FastLoggerConfig :=
  { StandardLoggerConfig :=
      { IsWritingToTheConsole := false,
        ErrorWriter := some 1, WarningWriter := some 2, InfoWriter := some 0,
        SuccessWriter := some 3, FatalWriter := some 4, RecordWriter := some 5,
        RawWriter := some 6, ShowDate := true },
    FlushInterval := 1000000000,
    FatalFunc := none }

/-- An environment in which every write is accepted. -/
def acceptAll : Env := { write := fun _ _ => .written }

/-- A timestamp as the refresher publishes it: 1 January 2024, 01:01:01. -/
def exampleNow : List Byte := refreshNow 2024 1 1 1 1 1

/-- Two argument lists of supported types. -/
def exampleArgs : List (List Arg) :=
  [[Arg.string (ascii "A"), Arg.int 5], [Arg.bool true]]

/-- A logger with content in the info and raw buffers. -/
def exampleLogger : FastLogger :=
  { NewFastLogger exampleConfig with infoLogs := ascii "a\n", rawLogs := ascii "r" }

instance : DecidablePred Call.lineTerminated := fun c =>
  match c with
  | .log _ _ => isTrue trivial
  | .format _ text => inferInstanceAs (Decidable (text.getLast? = some LF))
  | .prepare _ r _ =>
    inferInstanceAs
      (Decidable (lineComplete r.recBytes ∧ (r.isShowDate = true → 19 < r.recBytes.length)))
  | .record r => inferInstanceAs (Decidable (lineComplete r.recBytes))
  | .raw data => inferInstanceAs (Decidable (lineComplete data))

/-- The arguments of an Info, Error, Warning or Success call are all of types
that the type switch of addArgsToLog handles; the other calls take no argument
list. A call with an argument of another type panics after the timestamp has
been appended to the buffer (fastLogger.go 215-218). -/
def Call.argsHandled : Call → Prop
  | .log _ args => ∀ a ∈ args, a.supported = true
  | .format _ _ => True
  | .prepare _ _ _ => True
  | .record _ => True
  | .raw _ => True

instance : DecidablePred Call.argsHandled := fun c =>
  match c with
  | .log _ args => inferInstanceAs (Decidable (∀ a ∈ args, a.supported = true))
  | .format _ _ => isTrue trivial
  | .prepare _ _ _ => isTrue trivial
  | .record _ => isTrue trivial
  | .raw _ => isTrue trivial

/-- A later timestamp: 31 December 2024, 23:59:59. -/
def lateNow : List Byte := refreshNow 2024 12 31 23 59 59

/-- A record with a prefix and a payload, not yet finalized. -/
def exampleRecord : Record := (NewBuilder.Prefix (ascii "[p] ")).AppendFormat (ascii "hello")

/-- A record with the payload `hello` and no prefix, not yet finalized. -/
def payloadRecord : Record := NewBuilder.AppendFormat (ascii "hello")

/-- A run with one call of each kind, every payload ending with a line feed. -/
def exampleCalls : List (List Byte × Call) :=
  [(exampleNow, Call.log .info [Arg.string (ascii "A"), Arg.int 5]),
   (exampleNow, Call.format .error (ascii "e\n")),
   (lateNow, Call.prepare .warning (Record.Prepare exampleNow exampleRecord) 22),
   (lateNow, Call.record (Record.Build lateNow exampleRecord)),
   (lateNow, Call.raw (ascii "r\n"))]

/-- The logger after the run `exampleCalls` on a fresh logger. -/
def exampleCallsResult : FastLogger :=
  { NewFastLogger exampleConfig with
    infoLogs := ascii "2024/1/1 1:1:01 A5\n",
    errorLogs := ascii "2024/1/1 1:1:01 e\n",
    warningLogs := ascii "2024/12/31 23:59:59 hello\n",
    recordLogs := ascii "2024/12/31 23:59:59 [p] hello\n",
    rawLogs := ascii "r\n" }

/-! ## Decimal text as the specification words it -/

/-- Byte of an ASCII character. -/
def charByte (c : Char) : Byte := c.toNat.toUInt8

/-- The minimal decimal representation of a natural number, without padding:
the digits that the core library gives for base 10. -/
def dec (n : Nat) : List Byte := (Nat.toDigits 10 n).map charByte

/-- The minimal decimal representation of an integer: a minus sign for a
negative value, then the digits of the absolute value. -/
def decInt (i : Int) : List Byte :=
  match i with
  | Int.ofNat n => dec n
  | Int.negSucc n => 45 :: dec (n + 1)

/-- A value below one hundred written with exactly two digits, the tens digit
first (so with a leading zero below ten). -/
def twoDigits (n : Nat) : List Byte :=
  [charByte (Nat.digitChar (n / 10)), charByte (Nat.digitChar (n % 10))]

/-- The text of one argument as the specification words it: a string or a byte
sequence verbatim, `true` or `false` for a boolean, the minimal base-10
representation for a signed or unsigned integer; for a floating-point or
complex value the text that strconv gives. No text is specified for a value of
another type. -/
def Arg.text : Arg → List Byte
  | .string s => s
  | .int8 v => decInt v
  | .int16 v => decInt v
  | .int32 v => decInt v
  | .int v => decInt v
  | .int64 v => decInt v
  | .uint v => dec v
  | .uint8 v => dec v
  | .uint16 v => dec v
  | .uint32 v => dec v
  | .uint64 v => dec v
  | .float32 v => v.text
  | .float64 v => v.text
  | .bool true => ascii "true"
  | .bool false => ascii "false"
  | .complex64 v => v.text
  | .complex128 v => v.text
  | .bytes b => b
  | .uintptr v => dec v
  | .other => []

/-- Arguments of every kind that has a text, with a buffer to append to. -/
def textArgs : List Arg :=
  [Arg.string (ascii "A"), Arg.int (-5), Arg.uint8 200, Arg.bool true, Arg.bytes (ascii "zz"),
   Arg.int64 9223372036854775807, Arg.uintptr 0]

/-! ## The record pool and the process-wide state -/

/-- The function `Builder` of builder.go: `recordPool.Get()`, which hands out
a pooled record when the pool holds one and otherwise the result of `New`,
that is `NewBuilder()`. Returns the record and the remaining pool. -/
def Builder (pool : List Record) : Record × List Record :=
  match pool with
  | r :: rest => (r, rest)
  | [] => (NewBuilder, [])

/-- The process-wide state that logger construction reads and changes: the
value of `Now` (empty at start, helper.go 8-12) and the number of refresher
tasks started so far. -/
structure Process where
  now : List Byte
  refreshers : Nat
  deriving DecidableEq, Repr

/-- The state at process start. -/
def Process.start : Process := { now := [], refreshers := 0 }

/-- The call `NewStandardLogger(cfg)` in a process (standardLogger.go
57-103): a refresher task is started when `Now` holds the empty value. The
task sleeps 300 ms before it stores its first value, so `Now` is unchanged by
the construction itself. -/
def Process.construct (p : Process) (cfg : StandardLoggerConfig) :
    StandardLogger × Process :=
  (NewStandardLogger cfg,
    if NewStandardLogger.startsRefresher p.now then { p with refreshers := p.refreshers + 1 }
    else p)

/-- The call `NewFastLogger(cfg)` in a process: it calls `NewStandardLogger`
(fastLogger.go 68). -/
def Process.constructFast (p : Process) (cfg : FastLoggerConfig) : FastLogger × Process :=
  (NewFastLogger cfg, (p.construct cfg.StandardLoggerConfig).2)

/-- One round of a refresher task after its sleep: the formatted reading of
the clock is stored into `Now` (standardLogger.go 78-97). -/
def Process.publish (p : Process) (year month day hour min sec : Int) : Process :=
  { p with now := refreshNow year month day hour min sec }

/-! ## Inputs for the failure paths of Flush -/

/-- The configuration `exampleConfig` with a fatal callback that returns. -/
def callbackConfig : FastLoggerConfig := { exampleConfig with FatalFunc := some .returns }

/-- A freshly constructed logger into which one line has been put on the
info, the record and the raw channel. -/
def loadedLogger (cfg : FastLoggerConfig) : FastLogger :=
  { NewFastLogger cfg with
    infoLogs := ascii "a\n", recordLogs := ascii "r\n", rawLogs := ascii "w\n" }

/-- The writer of the info channel (writer 0) panics on every write; all other
writes are accepted. -/
def infoSinkPanics : Env :=
  { write := fun t _ => if t = .writer 0 then .panics (.custom 1) else .written }

/-- The writer of the record channel (writer 5) panics on every write; all
other writes are accepted. -/
def recordSinkPanics : Env :=
  { write := fun t _ => if t = .writer 5 then .panics (.custom 1) else .written }

/-- The writer of the info channel (writer 0) returns an error on every write
and takes nothing; all other writes are accepted. -/
def infoSinkErrors : Env :=
  { write := fun t _ => if t = .writer 0 then .failed else .written }

/-! ## The unbuffered logger on the same calls -/

theorem addArgsToLog_append (args : List Arg) (buf : List Byte) :
    addArgsToLog buf args =
      match addArgsToLog [] args with
      | .ok t => .ok (buf ++ t)
      | .error e => .error e := by
  induction args generalizing buf with
  | nil => simp [addArgsToLog]
  | cons a rest ih =>
    have key : ∀ x : List Byte, addArgsToLog (buf ++ x) rest =
        match addArgsToLog x rest with
        | .ok t => .ok (buf ++ t)
        | .error e => .error e := by
      intro x
      rw [ih (buf ++ x), ih x]
      cases addArgsToLog [] rest <;> simp
    cases a <;>
      simp only [addArgsToLog, AppendInt, AppendUint, AppendBool, List.nil_append] <;>
      first
        | rfl
        | exact key _

theorem addArgsToLog_supported (args : List Arg) (h : ∀ a ∈ args, a.supported = true) :
    ∃ t, addArgsToLog [] args = .ok t := by
  induction args with
  | nil => exact ⟨[], rfl⟩
  | cons a rest ih =>
    obtain ⟨t, ht⟩ := ih (fun x hx => h x (List.mem_cons_of_mem _ hx))
    have ha := h a (List.mem_cons_self _ _)
    cases a <;>
      first
        | (simp [Arg.supported] at ha; done)
        | (simp only [addArgsToLog, AppendInt, AppendUint, AppendBool, List.nil_append]
           rw [addArgsToLog_append, ht]
           exact ⟨_, rfl⟩)

/-! ## Lemmas on runs of Info, Error, Warning and Success -/

theorem Call.apply_log (sev : Severity) (now : List Byte) (logger : FastLogger)
    (args : List Arg) (t : List Byte) (h : addArgsToLog [] args = .ok t) :
    ∃ logger', (Call.log sev args).apply now logger = .ok logger' ∧
      logger'.stdLogger = logger.stdLogger ∧
      logger'.logs sev.channel = logger.logs sev.channel ++
        ((if logger.stdLogger.showDate then now else []) ++ t ++ [LF]) ∧
      ∀ c, c ≠ sev.channel → logger'.logs c = logger.logs c := by
  cases sev <;>
    simp only [Call.apply, FastLogger.Info, FastLogger.Error, FastLogger.Warning,
      FastLogger.Success] <;>
    rw [addArgsToLog_append, h] <;>
    cases logger.stdLogger.showDate <;>
    refine ⟨_, rfl, rfl, ?_, ?_⟩ <;>
    first
      | (intro c hc; cases c <;> first | rfl | exact absurd rfl hc)
      | simp [FastLogger.logs, Severity.channel]

theorem log_run_appends (sev : Severity) (ts : List Byte) (calls : List (List Arg))
    (hsup : ∀ args ∈ calls, ∀ a ∈ args, a.supported = true) (logger : FastLogger) :
    ∃ logger' texts,
      List.Forall₂ (fun args t => addArgsToLog [] args = .ok t) calls texts ∧
      runCalls logger (calls.map (fun args => (ts, Call.log sev args))) = .ok logger' ∧
      logger'.stdLogger = logger.stdLogger ∧
      logger'.logs sev.channel = logger.logs sev.channel ++
        (texts.map (fun t =>
          (if logger.stdLogger.showDate then ts else []) ++ t ++ [LF])).flatten := by
  induction calls generalizing logger with
  | nil => exact ⟨logger, [], List.Forall₂.nil, rfl, rfl, by simp⟩
  | cons args rest ih =>
    obtain ⟨t, ht⟩ := addArgsToLog_supported args (hsup args (List.mem_cons_self _ _))
    obtain ⟨l1, h1, hs1, hb1, _⟩ := Call.apply_log sev ts logger args t ht
    obtain ⟨l2, texts, hf, h2, hs2, hb2⟩ :=
      ih (fun x hx => hsup x (List.mem_cons_of_mem _ hx)) l1
    refine ⟨l2, t :: texts, List.Forall₂.cons ht hf, ?_, hs2.trans hs1, ?_⟩
    · simp only [List.map_cons, runCalls, h1]
      exact h2
    · rw [hb2, hb1, hs1]
      simp [List.append_assoc]

/-- C1: on a logger whose buffer for a severity is empty, a run of Info calls
(likewise Error, Warning, Success) with arguments of supported types, under one
timestamp snapshot `ts`, does not panic and leaves in that buffer the
concatenation, in call order, of `ts` (when showDate is set) followed by
`addArgsToLog(empty, args)` and one line feed per call. -/
theorem runCalls_log_buffer (sev : Severity) (logger : FastLogger) (ts : List Byte)
    (calls : List (List Arg))
    (hempty : logger.logs sev.channel = [])
    (hsup : ∀ args ∈ calls, ∀ a ∈ args, a.supported = true) :
    ∃ logger' texts,
      List.Forall₂ (fun args t => addArgsToLog [] args = .ok t) calls texts ∧
      runCalls logger (calls.map (fun args => (ts, Call.log sev args))) = .ok logger' ∧
      logger'.logs sev.channel =
        (texts.map (fun t =>
          (if logger.stdLogger.showDate then ts else []) ++ t ++ [LF])).flatten := by
  obtain ⟨l, texts, hf, hr, _, hb⟩ := log_run_appends sev ts calls hsup logger
  exact ⟨l, texts, hf, hr, by rw [hb, hempty, List.nil_append]⟩

theorem runCalls_log_buffer_witness :
    (NewFastLogger exampleConfig).logs Severity.info.channel = [] ∧
    (∀ args ∈ exampleArgs, ∀ a ∈ args, a.supported = true) ∧
    ∃ logger' texts,
      List.Forall₂ (fun args t => addArgsToLog [] args = .ok t) exampleArgs texts ∧
      runCalls (NewFastLogger exampleConfig)
        (exampleArgs.map (fun args => (exampleNow, Call.log .info args))) = .ok logger' ∧
      logger'.logs Severity.info.channel =
        (texts.map (fun t =>
          (if (NewFastLogger exampleConfig).stdLogger.showDate then exampleNow else []) ++
            t ++ [LF])).flatten :=
  ⟨rfl, by decide,
    runCalls_log_buffer .info (NewFastLogger exampleConfig) exampleNow exampleArgs rfl
      (by decide)⟩

/-- The run of the witness above, evaluated. -/
theorem log_run_example :
    (runCalls (NewFastLogger exampleConfig)
        (exampleArgs.map (fun args => (exampleNow, Call.log .info args)))).toOption.map
      (fun l => l.infoLogs) = some (ascii "2024/1/1 1:1:01 A5\n2024/1/1 1:1:01 true\n") := by
  decide

/-! ## Flush without failures -/

theorem StandardLogger.log_written (env : Env) (hok : ∀ t b, env.write t b = .written)
    (std : StandardLogger) (buf : List Byte) (w : Option WriterId) :
    std.log env buf w =
      ((if std.console then [Event.write .console buf] else []) ++
        (match w with
         | some w => [Event.write (.writer w) buf]
         | none => []), none) := by
  cases hc : std.console <;> cases w <;> simp [StandardLogger.log, writeTo, hok, hc]

theorem Flush.rawBlock_written (env : Env) (hok : ∀ t b, env.write t b = .written)
    (logger : FastLogger) (evs : List Event) :
    Flush.rawBlock env logger evs =
      ⟨{ logger with rawLogs := [] },
        evs ++ channelWrites logger.stdLogger .raw logger.rawLogs, .returned⟩ := by
  unfold Flush.rawBlock
  by_cases h : logger.rawLogs = []
  · cases logger; simp_all [channelWrites]
  · have hpos : logger.rawLogs.length > 0 := List.length_pos.mpr h
    simp [hpos, StandardLogger.raw, StandardLogger.log_written env hok, channelWrites, h,
      StandardLogger.writerOf]

theorem Flush.recordBlock_written (env : Env) (hok : ∀ t b, env.write t b = .written)
    (logger : FastLogger) (evs : List Event) :
    Flush.recordBlock env logger evs =
      ⟨{ logger with recordLogs := [], rawLogs := [] },
        evs ++ channelWrites logger.stdLogger .record logger.recordLogs ++
          channelWrites logger.stdLogger .raw logger.rawLogs, .returned⟩ := by
  unfold Flush.recordBlock
  by_cases h : logger.recordLogs = []
  · rw [Flush.rawBlock_written env hok]
    cases logger; simp_all [channelWrites]
  · have hpos : logger.recordLogs.length > 0 := List.length_pos.mpr h
    simp [hpos, StandardLogger.record, StandardLogger.log_written env hok, channelWrites, h,
      StandardLogger.writerOf, Flush.rawBlock_written env hok]

theorem Flush.successBlock_written (env : Env) (hok : ∀ t b, env.write t b = .written)
    (logger : FastLogger) (evs : List Event) :
    Flush.successBlock env logger evs =
      ⟨{ logger with successLogs := [], recordLogs := [], rawLogs := [] },
        evs ++ channelWrites logger.stdLogger .success logger.successLogs ++
          channelWrites logger.stdLogger .record logger.recordLogs ++
          channelWrites logger.stdLogger .raw logger.rawLogs, .returned⟩ := by
  unfold Flush.successBlock
  by_cases h : logger.successLogs = []
  · rw [Flush.recordBlock_written env hok]
    cases logger; simp_all [channelWrites]
  · have hpos : logger.successLogs.length > 0 := List.length_pos.mpr h
    simp [hpos, StandardLogger.success, StandardLogger.log_written env hok, channelWrites, h,
      StandardLogger.writerOf, Flush.recordBlock_written env hok]

theorem Flush.warningBlock_written (env : Env) (hok : ∀ t b, env.write t b = .written)
    (logger : FastLogger) (evs : List Event) :
    Flush.warningBlock env logger evs =
      ⟨{ logger with warningLogs := [], successLogs := [], recordLogs := [], rawLogs := [] },
        evs ++ channelWrites logger.stdLogger .warning logger.warningLogs ++
          channelWrites logger.stdLogger .success logger.successLogs ++
          channelWrites logger.stdLogger .record logger.recordLogs ++
          channelWrites logger.stdLogger .raw logger.rawLogs, .returned⟩ := by
  unfold Flush.warningBlock
  by_cases h : logger.warningLogs = []
  · rw [Flush.successBlock_written env hok]
    cases logger; simp_all [channelWrites]
  · have hpos : logger.warningLogs.length > 0 := List.length_pos.mpr h
    simp [hpos, StandardLogger.warning, StandardLogger.log_written env hok, channelWrites, h,
      StandardLogger.writerOf, Flush.successBlock_written env hok]

theorem Flush.errorBlock_written (env : Env) (hok : ∀ t b, env.write t b = .written)
    (logger : FastLogger) (evs : List Event) :
    Flush.errorBlock env logger evs =
      ⟨{ logger with errorLogs := [], warningLogs := [], successLogs := [],
                     recordLogs := [], rawLogs := [] },
        evs ++ channelWrites logger.stdLogger .error logger.errorLogs ++
          channelWrites logger.stdLogger .warning logger.warningLogs ++
          channelWrites logger.stdLogger .success logger.successLogs ++
          channelWrites logger.stdLogger .record logger.recordLogs ++
          channelWrites logger.stdLogger .raw logger.rawLogs, .returned⟩ := by
  unfold Flush.errorBlock
  by_cases h : logger.errorLogs = []
  · rw [Flush.warningBlock_written env hok]
    cases logger; simp_all [channelWrites]
  · have hpos : logger.errorLogs.length > 0 := List.length_pos.mpr h
    simp [hpos, StandardLogger.error, StandardLogger.log_written env hok, channelWrites, h,
      StandardLogger.writerOf, Flush.warningBlock_written env hok]

theorem FastLogger.Flush_written (env : Env) (hok : ∀ t b, env.write t b = .written)
    (logger : FastLogger) :
    logger.Flush env =
      ⟨logger.drained,
        channelWrites logger.stdLogger .info logger.infoLogs ++
          channelWrites logger.stdLogger .error logger.errorLogs ++
          channelWrites logger.stdLogger .warning logger.warningLogs ++
          channelWrites logger.stdLogger .success logger.successLogs ++
          channelWrites logger.stdLogger .record logger.recordLogs ++
          channelWrites logger.stdLogger .raw logger.rawLogs, .returned⟩ := by
  unfold FastLogger.Flush
  by_cases h : logger.infoLogs = []
  · rw [Flush.errorBlock_written env hok]
    cases logger; simp_all [channelWrites, FastLogger.drained]
  · have hpos : logger.infoLogs.length > 0 := List.length_pos.mpr h
    simp [hpos, StandardLogger.info, StandardLogger.log_written env hok, channelWrites, h,
      StandardLogger.writerOf, Flush.errorBlock_written env hok, FastLogger.drained]

theorem sinkContent_infix (env : Env) (t : Target) (d : List Byte) (evs : List Event)
    (hmem : Event.write t d ∈ evs) (hw : env.write t d = .written) :
    d <:+: sinkContent env t evs := by
  induction evs with
  | nil => cases hmem
  | cons e rest ih =>
    rcases List.mem_cons.mp hmem with h | h
    · subst h
      simp only [sinkContent, hw, and_self, if_true]
      exact List.infix_append' [] d (sinkContent env t rest)
    · have hrest := ih h
      cases e with
      | write t' d' =>
        simp only [sinkContent]
        split
        · exact hrest.trans (List.suffix_append _ _).isInfix
        · exact hrest
      | fatalFunc v => simpa only [sinkContent] using hrest

theorem mem_channelWrites_writer (std : StandardLogger) (c : Channel) (buf : List Byte)
    (w : WriterId) (hne : buf ≠ []) (hw : std.writerOf c = some w) :
    Event.write (.writer w) buf ∈ channelWrites std c buf := by
  simp [channelWrites, hne, hw]

theorem mem_channelWrites_console (std : StandardLogger) (c : Channel) (buf : List Byte)
    (hne : buf ≠ []) (hc : std.console = true) :
    Event.write .console buf ∈ channelWrites std c buf := by
  simp [channelWrites, hne, hc]

/-- C2: when every write is accepted, Flush returns normally, leaves the six
buffers empty, and its writes are, in the order info, error, warning, success,
record, raw and for the channels with a non-empty buffer only, one write of the
whole buffer to the console (when enabled) and one to the writer of the channel
(when configured). Hence each buffer is contained in what its writer, and the
console when enabled, has taken after Flush. -/
theorem Flush_drains_in_order (env : Env) (logger : FastLogger)
    (hok : ∀ t b, env.write t b = .written) :
    (logger.Flush env).exit = .returned ∧
    (∀ c, (logger.Flush env).logger.logs c = []) ∧
    (logger.Flush env).events =
      channelWrites logger.stdLogger .info logger.infoLogs ++
        channelWrites logger.stdLogger .error logger.errorLogs ++
        channelWrites logger.stdLogger .warning logger.warningLogs ++
        channelWrites logger.stdLogger .success logger.successLogs ++
        channelWrites logger.stdLogger .record logger.recordLogs ++
        channelWrites logger.stdLogger .raw logger.rawLogs ∧
    (∀ c w, logger.stdLogger.writerOf c = some w →
      logger.logs c <:+: sinkContent env (.writer w) (logger.Flush env).events) ∧
    (logger.stdLogger.console = true →
      ∀ c, logger.logs c <:+: sinkContent env .console (logger.Flush env).events) := by
  rw [FastLogger.Flush_written env hok logger]
  refine ⟨rfl, ?_, rfl, ?_, ?_⟩
  · intro c
    cases c <;> rfl
  · intro c w hw
    by_cases hne : logger.logs c = []
    · rw [hne]; exact List.nil_infix
    · apply sinkContent_infix env _ _ _ _ (hok _ _)
      have hm := mem_channelWrites_writer logger.stdLogger c _ w hne hw
      cases c <;> simp only [FastLogger.logs] at hm ⊢ <;> simp [hm]
  · intro hc c
    by_cases hne : logger.logs c = []
    · rw [hne]; exact List.nil_infix
    · apply sinkContent_infix env _ _ _ _ (hok _ _)
      have hm := mem_channelWrites_console logger.stdLogger c _ hne hc
      cases c <;> simp only [FastLogger.logs] at hm ⊢ <;> simp [hm]

theorem Flush_drains_in_order_witness :
    (∀ t b, acceptAll.write t b = .written) ∧
    (exampleLogger.Flush acceptAll).exit = .returned ∧
    (∀ c, (exampleLogger.Flush acceptAll).logger.logs c = []) ∧
    (exampleLogger.Flush acceptAll).events =
      [Event.write (.writer 0) (ascii "a\n"), Event.write (.writer 6) (ascii "r")] :=
  have h := Flush_drains_in_order acceptAll exampleLogger (fun _ _ => rfl)
  ⟨fun _ _ => rfl, h.1, h.2.1, h.2.2.1.trans (by decide)⟩

/-! ## Line-completeness of the buffers -/

theorem lineComplete_append_of_last (a b : List Byte) (h : b.getLast? = some LF) :
    lineComplete (a ++ b) := by
  right
  simp [List.getLast?_append, h]

theorem lineComplete_append (a b : List Byte) (ha : lineComplete a) (hb : lineComplete b) :
    lineComplete (a ++ b) := by
  rcases hb with rfl | hb
  · simpa using ha
  · exact lineComplete_append_of_last a b hb

theorem patchTimestamp_last (now rec : List Byte) (spare : Nat) (b : List Byte)
    (hlen : 19 < rec.length) (h : patchTimestamp now rec spare = .ok b) :
    b.getLast? = rec.getLast? := by
  unfold patchTimestamp at h
  split at h
  · cases h
  · cases h
    have hne : ¬ rec.length ≤ 19 := by omega
    rw [List.getLast?_append, List.getLast?_drop, if_neg hne]
    cases hr : rec.getLast? with
    | none => simp at hr; subst hr; simp at hlen
    | some x => rfl

theorem prepareCall_lineComplete (sev : Severity) (now : List Byte) (logger : FastLogger)
    (r : Record) (spare : Nat) (res : FastLogger × Record)
    (hinv : ∀ c, lineComplete (logger.logs c))
    (hr : lineComplete r.recBytes) (hlen : r.isShowDate = true → 19 < r.recBytes.length)
    (h : prepareCall sev now logger r spare = .ok res) :
    ∀ c, lineComplete (res.1.logs c) := by
  have key : ∀ r' : Record,
      (if r.isShowDate then
        match patchTimestamp now r.recBytes spare with
        | .error e => (.error e : Except PanicValue Record)
        | .ok b => .ok { r with recBytes := b }
      else .ok r) = .ok r' → lineComplete r'.recBytes := by
    intro r' hp
    by_cases hd : r.isShowDate = true
    · rw [if_pos hd] at hp
      cases hpt : patchTimestamp now r.recBytes spare with
      | error e => rw [hpt] at hp; cases hp
      | ok b =>
        rw [hpt] at hp
        cases hp
        have hl := patchTimestamp_last now r.recBytes spare b (hlen hd) hpt
        rcases hr with h0 | h1
        · have := hlen hd; rw [h0] at this; simp at this
        · right; simpa [hl] using h1
    · rw [if_neg hd] at hp
      cases hp
      exact hr
  cases sev <;>
    simp only [prepareCall, FastLogger.InfoPrepare, FastLogger.ErrorPrepare,
      FastLogger.WarningPrepare, FastLogger.SuccessPrepare] at h <;>
    split at h <;>
    first
      | (cases h; done)
      | (rename_i r' hp
         cases h
         have hk := key r' hp
         intro c
         have hc := hinv c
         cases c <;> simp only [FastLogger.logs] at hc ⊢ <;>
           first
             | exact hc
             | exact lineComplete_append _ _ hc hk)

theorem Call.apply_lineComplete (now : List Byte) (logger : FastLogger) (call : Call)
    (logger' : FastLogger) (hinv : ∀ c, lineComplete (logger.logs c))
    (hcall : call.lineTerminated) (h : call.apply now logger = .ok logger') :
    ∀ c, lineComplete (logger'.logs c) := by
  cases call with
  | log sev args =>
    cases hargs : addArgsToLog [] args with
    | error e =>
      cases sev <;>
        simp only [Call.apply, FastLogger.Info, FastLogger.Error, FastLogger.Warning,
          FastLogger.Success] at h <;>
        rw [addArgsToLog_append, hargs] at h <;> cases h
    | ok t =>
      obtain ⟨l1, h1, _, hb, hframe⟩ := Call.apply_log sev now logger args t hargs
      have hl : l1 = logger' := by
        rw [h1] at h
        injection h
      subst hl
      intro c
      by_cases hc : c = sev.channel
      · subst hc
        rw [hb, ← List.append_assoc]
        exact lineComplete_append_of_last _ _ (by simp)
      · rw [hframe c hc]
        exact hinv c
  | format sev text =>
    simp only [Call.lineTerminated] at hcall
    intro c
    have hc := hinv c
    cases sev <;>
      simp only [Call.apply, FastLogger.FormatInfo, FastLogger.FormatError,
        FastLogger.FormatWarning, FastLogger.FormatSuccess] at h <;>
      cases h <;>
      cases c <;>
      simp only [FastLogger.logs] at hc ⊢ <;>
      first
        | exact lineComplete_append_of_last _ _ hcall
        | (split <;> exact hc)
  | prepare sev r spare =>
    simp only [Call.apply] at h
    cases hp : prepareCall sev now logger r spare with
    | error e => rw [hp] at h; cases h
    | ok res =>
      rw [hp] at h
      cases h
      exact prepareCall_lineComplete sev now logger r spare res hinv hcall.1 hcall.2 hp
  | record r =>
    simp only [Call.lineTerminated] at hcall
    simp only [Call.apply, FastLogger.Record] at h
    intro c
    have hc := hinv c
    split at h <;> cases h <;> cases c <;> simp only [FastLogger.logs] at hc ⊢ <;>
      first
        | exact hc
        | exact lineComplete_append _ _ hc hcall
  | raw data =>
    simp only [Call.lineTerminated] at hcall
    simp only [Call.apply, FastLogger.Raw] at h
    cases h
    intro c
    have hc := hinv c
    cases c <;> simp only [FastLogger.logs] at hc ⊢ <;>
      first
        | exact hc
        | exact lineComplete_append _ _ hc hcall

theorem runCalls_lineComplete (calls : List (List Byte × Call)) (logger logger' : FastLogger)
    (hinv : ∀ c, lineComplete (logger.logs c))
    (hcalls : ∀ p ∈ calls, p.2.lineTerminated)
    (h : runCalls logger calls = .ok logger') :
    ∀ c, lineComplete (logger'.logs c) := by
  induction calls generalizing logger with
  | nil =>
    simp only [runCalls] at h
    cases h
    exact hinv
  | cons p rest ih =>
    obtain ⟨now, call⟩ := p
    simp only [runCalls] at h
    cases hstep : call.apply now logger with
    | error e => rw [hstep] at h; cases h
    | ok l1 =>
      rw [hstep] at h
      exact ih l1
        (Call.apply_lineComplete now logger call l1 hinv
          (hcalls (now, call) (List.mem_cons_self _ _)) hstep)
        (fun q hq => hcalls q (List.mem_cons_of_mem _ hq)) h

theorem prepareCall_returns (sev : Severity) (now : List Byte) (logger : FastLogger)
    (r : Record) (spare : Nat) (hlen : r.isShowDate = true → 19 < r.recBytes.length) :
    ∃ res, prepareCall sev now logger r spare = .ok res := by
  cases hd : r.isShowDate
  · cases sev <;>
      simp [prepareCall, FastLogger.InfoPrepare, FastLogger.ErrorPrepare,
        FastLogger.WarningPrepare, FastLogger.SuccessPrepare, hd]
  · have hno : ¬ r.recBytes.length + spare < 19 := by
      have := hlen hd
      omega
    cases sev <;>
      simp [prepareCall, FastLogger.InfoPrepare, FastLogger.ErrorPrepare,
        FastLogger.WarningPrepare, FastLogger.SuccessPrepare, patchTimestamp, hd, hno]

theorem Call.apply_returns (now : List Byte) (logger : FastLogger) (call : Call)
    (hcall : call.lineTerminated) (hargs : call.argsHandled) :
    ∃ logger', call.apply now logger = .ok logger' := by
  cases call with
  | log sev args =>
    obtain ⟨t, ht⟩ := addArgsToLog_supported args hargs
    obtain ⟨l1, h1, _⟩ := Call.apply_log sev now logger args t ht
    exact ⟨l1, h1⟩
  | format sev text => cases sev <;> exact ⟨_, rfl⟩
  | prepare sev r spare =>
    obtain ⟨res, hres⟩ := prepareCall_returns sev now logger r spare hcall.2
    exact ⟨res.1, by simp [Call.apply, hres, Except.map]⟩
  | record r => exact ⟨_, rfl⟩
  | raw data => exact ⟨_, rfl⟩

theorem runCalls_returns_lineComplete (calls : List (List Byte × Call)) (logger : FastLogger)
    (hinv : ∀ c, lineComplete (logger.logs c))
    (hcalls : ∀ p ∈ calls, p.2.lineTerminated)
    (hargs : ∀ p ∈ calls, p.2.argsHandled) :
    ∃ logger', runCalls logger calls = .ok logger' ∧ ∀ c, lineComplete (logger'.logs c) := by
  induction calls generalizing logger with
  | nil => exact ⟨logger, rfl, hinv⟩
  | cons p rest ih =>
    obtain ⟨now, call⟩ := p
    obtain ⟨l1, h1⟩ := Call.apply_returns now logger call
      (hcalls (now, call) (List.mem_cons_self _ _)) (hargs (now, call) (List.mem_cons_self _ _))
    obtain ⟨l2, h2, hinv2⟩ := ih l1
      (Call.apply_lineComplete now logger call l1 hinv
        (hcalls (now, call) (List.mem_cons_self _ _)) h1)
      (fun q hq => hcalls q (List.mem_cons_of_mem _ hq))
      (fun q hq => hargs q (List.mem_cons_of_mem _ hq))
    refine ⟨l2, ?_, hinv2⟩
    simp only [runCalls, h1]
    exact h2

/-- C3 (as amended): on a freshly constructed logger, for every sequence of
logging calls in which the arguments of each Info, Error, Warning and Success
call are of handled types, the text of each format call ends with a line feed,
the record bytes of each Prepare or Record call and the data of each Raw call
are empty or end with a line feed, and a dated record given to a Prepare call
is longer than 19 bytes, every call returns, and after every call of the run
every channel buffer is either empty or ends with a line feed. Info, Error,
Warning and Success append the line feed themselves. -/
theorem fresh_run_line_complete (cfg : FastLoggerConfig) (calls : List (List Byte × Call))
    (hcalls : ∀ p ∈ calls, p.2.lineTerminated)
    (hargs : ∀ p ∈ calls, p.2.argsHandled)
    (done : List (List Byte × Call)) (hdone : done <+: calls) :
    ∃ logger', runCalls (NewFastLogger cfg) done = .ok logger' ∧
      ∀ c, lineComplete (logger'.logs c) :=
  runCalls_returns_lineComplete done (NewFastLogger cfg)
    (fun c => by cases c <;> exact Or.inl rfl)
    (fun p hp => hcalls p (hdone.subset hp))
    (fun p hp => hargs p (hdone.subset hp))

theorem fresh_run_line_complete_witness :
    (∀ p ∈ exampleCalls, p.2.lineTerminated) ∧
    (∀ p ∈ exampleCalls, p.2.argsHandled) ∧
    exampleCalls <+: exampleCalls ∧
    runCalls (NewFastLogger exampleConfig) exampleCalls = .ok exampleCallsResult ∧
    ∃ logger', runCalls (NewFastLogger exampleConfig) exampleCalls = .ok logger' ∧
      ∀ c, lineComplete (logger'.logs c) :=
  ⟨by decide, by decide, ⟨[], List.append_nil _⟩, by rfl,
    fresh_run_line_complete exampleConfig exampleCalls (by decide) (by decide) exampleCalls
      (⟨[], List.append_nil _⟩)⟩

/-- A call of Info with an argument outside the handled types meets every
condition on payloads, and the run does not return: the call panics. -/
theorem unhandled_argument_panics :
    Call.lineTerminated (Call.log .info [Arg.string (ascii "A"), Arg.other]) ∧
    ¬ Call.argsHandled (Call.log .info [Arg.string (ascii "A"), Arg.other]) ∧
    runCalls (NewFastLogger exampleConfig)
      [(exampleNow, Call.log .info [Arg.string (ascii "A"), Arg.other])] =
      .error .typeAssertion :=
  ⟨by decide, by decide, rfl⟩

/-- C3 as stated fails: after one FormatInfo call whose text has no line feed,
and after one Raw call whose data has none, the buffer of a fresh logger is
neither empty nor ends with a line feed. -/
theorem fresh_run_incomplete_line :
    (runCalls (NewFastLogger exampleConfig)
        [(exampleNow, Call.format .info (ascii "x"))]).toOption.map
      (fun l => l.logs .info) = some (ascii "2024/1/1 1:1:01 x") ∧
    ¬ lineComplete (ascii "2024/1/1 1:1:01 x") ∧
    (runCalls (NewFastLogger exampleConfig)
        [(exampleNow, Call.raw (ascii "a"))]).toOption.map
      (fun l => l.logs .raw) = some (ascii "a") ∧
    ¬ lineComplete (ascii "a") := by
  decide

/-! ## StopWithoutFlush -/

/-- C4: StopWithoutFlush leaves the six buffers empty and clears the running
flag; the function calls no writer, and a Flush executed after it returns
without a single write, whatever the writers do, so no target takes a byte of
what was buffered before. -/
theorem StopWithoutFlush_discards (env : Env) (logger : FastLogger) :
    (∀ c, logger.StopWithoutFlush.logs c = []) ∧
    logger.StopWithoutFlush.isRunning = false ∧
    logger.StopWithoutFlush.stdLogger = logger.stdLogger ∧
    logger.StopWithoutFlush.fatalFunc = logger.fatalFunc ∧
    (logger.StopWithoutFlush.Flush env).events = [] ∧
    (logger.StopWithoutFlush.Flush env).exit = .returned ∧
    (logger.StopWithoutFlush.Flush env).logger = logger.StopWithoutFlush ∧
    ∀ t, sinkContent env t (logger.StopWithoutFlush.Flush env).events = [] := by
  refine ⟨fun c => by cases c <;> rfl, rfl, rfl, rfl, rfl, rfl, rfl, fun t => rfl⟩

/-! ## Build, Prepare and Reset -/

theorem Record.Prepare_of_wasPrepare (now : List Byte) (r : Record)
    (h : r.wasPrepare = true) : Record.Prepare now r = r := by
  simp [Record.Prepare, h]

/-- C5: on a record that is not finalized, Build and Prepare both leave the
bytes `(now if isShowDate) ++ (prefix if present) ++ rec ++ (line feed if
isNewLine)`, set the finalized flag, and change no other field. -/
theorem Build_Prepare_bytes (now : List Byte) (r : Record) (h : r.wasPrepare = false) :
    Record.Build now r =
      { r with
        recBytes := (if r.isShowDate then now else []) ++
          (match r.pfx with
           | some p => p
           | none => []) ++ r.recBytes ++ (if r.isNewLine then [LF] else []),
        wasPrepare := true } ∧
    Record.Prepare now r =
      { r with
        recBytes := (if r.isShowDate then now else []) ++
          (match r.pfx with
           | some p => p
           | none => []) ++ r.recBytes ++ (if r.isNewLine then [LF] else []),
        wasPrepare := true } := by
  obtain ⟨pfx, sd, nl, rb, wg, wp⟩ := r
  simp only at h
  subst h
  cases pfx <;> cases sd <;> cases nl <;> simp [Record.Build, Record.Prepare]

theorem Build_Prepare_bytes_witness :
    exampleRecord.wasPrepare = false ∧
    (Record.Build exampleNow exampleRecord).recBytes = ascii "2024/1/1 1:1:01 [p] hello\n" ∧
    (Record.Prepare exampleNow exampleRecord).recBytes = ascii "2024/1/1 1:1:01 [p] hello\n" :=
  have h := Build_Prepare_bytes exampleNow exampleRecord rfl
  ⟨rfl, (congrArg Record.recBytes h.1).trans (by decide),
    (congrArg Record.recBytes h.2).trans (by decide)⟩

/-- C6 at a failing input: a record finalized by Build has the finalized flag
set, and a second Build puts the prefix and the timestamp in front and a line
feed at the end once more, so the second call is not a no-op; Prepare on the
same finalized record changes nothing. -/
theorem Build_twice_reapplies :
    (Record.Build exampleNow exampleRecord).wasPrepare = true ∧
    (Record.Build exampleNow exampleRecord).recBytes = ascii "2024/1/1 1:1:01 [p] hello\n" ∧
    (Record.Build exampleNow (Record.Build exampleNow exampleRecord)).recBytes =
      ascii "2024/1/1 1:1:01 [p] 2024/1/1 1:1:01 [p] hello\n\n" ∧
    Record.Build exampleNow (Record.Build exampleNow exampleRecord) ≠
      Record.Build exampleNow exampleRecord ∧
    Record.Prepare exampleNow (Record.Build exampleNow exampleRecord) =
      Record.Build exampleNow exampleRecord := by
  decide

/-- C7: Reset leaves the payload empty, isShowDate and isNewLine true and the
finalized flag false, and leaves the prefix and the pool marker as they were. -/
theorem Reset_frame (r : Record) :
    r.Reset.recBytes = [] ∧ r.Reset.isShowDate = true ∧ r.Reset.isNewLine = true ∧
    r.Reset.wasPrepare = false ∧ r.Reset.pfx = r.pfx ∧ r.Reset.wasGot = r.wasGot :=
  ⟨rfl, rfl, rfl, rfl, rfl, rfl⟩

/-! ## The 19-byte patch of the Prepare calls -/

/-- C8 at failing inputs. With the 16-byte timestamp of 1 January 2024,
01:01:01, the first 19 bytes of a prepared record with payload `hello` end with
the payload bytes `hel`, and InfoPrepare at 31 December 2024, 23:59:59
overwrites them. With the initial empty value of `Now`, a prepared record with
an empty payload has one byte, and with the capacity 8 that it then has in Go
(spare 7) the slice expression of InfoPrepare panics. -/
theorem Prepare_timestamp_not_19_bytes :
    exampleNow = ascii "2024/1/1 1:1:01 " ∧
    (Record.Prepare exampleNow payloadRecord).isShowDate = true ∧
    (Record.Prepare exampleNow payloadRecord).recBytes = ascii "2024/1/1 1:1:01 hello\n" ∧
    (Record.Prepare exampleNow payloadRecord).recBytes.take 19 = ascii "2024/1/1 1:1:01 hel" ∧
    ((NewFastLogger exampleConfig).InfoPrepare lateNow
        (Record.Prepare exampleNow payloadRecord) 26).toOption.map
      (fun res => (res.1.infoLogs, res.2.recBytes)) =
      some (ascii "2024/12/31 23:59:59lo\n", ascii "2024/12/31 23:59:59lo\n") ∧
    (Record.Prepare [] NewBuilder).isShowDate = true ∧
    (Record.Prepare [] NewBuilder).recBytes = [LF] ∧
    (NewFastLogger exampleConfig).InfoPrepare lateNow (Record.Prepare [] NewBuilder) 7 =
      .error .sliceBounds := by
  refine ⟨by decide, by decide, by decide, by decide, by decide, by decide, by decide, rfl⟩

theorem copy_length (dst src : List Byte) : (copy dst src).length = dst.length := by
  simp only [copy, List.length_append, List.length_take, List.length_drop]
  omega

theorem patch_length (now rec : List Byte) :
    (copy (rec.take 19) now ++ rec.drop 19).length = rec.length := by
  simp only [List.length_append, copy_length, List.length_take, List.length_drop]
  omega

theorem patch_getElem (now rec : List Byte) (hlen : 19 ≤ rec.length) (i : Nat)
    (hi : 19 ≤ i) : (copy (rec.take 19) now ++ rec.drop 19)[i]? = rec[i]? := by
  have hc : (copy (rec.take 19) now).length = 19 := by
    rw [copy_length, List.length_take]
    omega
  rw [List.getElem?_append_right (by omega), hc, List.getElem?_drop]
  congr 1
  omega

/-- C9: on a record of at least 19 bytes, each of InfoPrepare, ErrorPrepare,
WarningPrepare and SuccessPrepare succeeds, leaves the length of the record and
every byte at index 19 or more unchanged, changes no other field of the record
(it is not reset), and appends to the buffer of its channel exactly the bytes
of the record after the patch. -/
theorem prepareCall_patch_frame (sev : Severity) (now : List Byte) (logger : FastLogger)
    (record : Record) (spare : Nat) (hlen : 19 ≤ record.recBytes.length) :
    ∃ logger' record',
      prepareCall sev now logger record spare = .ok (logger', record') ∧
      record'.recBytes.length = record.recBytes.length ∧
      (∀ i, 19 ≤ i → record'.recBytes[i]? = record.recBytes[i]?) ∧
      record' = { record with recBytes := record'.recBytes } ∧
      logger'.logs sev.channel = logger.logs sev.channel ++ record'.recBytes := by
  have hno : ¬ record.recBytes.length + spare < 19 := by omega
  cases hd : record.isShowDate <;> cases sev <;>
    simp only [prepareCall, FastLogger.InfoPrepare, FastLogger.ErrorPrepare,
      FastLogger.WarningPrepare, FastLogger.SuccessPrepare, patchTimestamp, hd, if_neg hno] <;>
    refine ⟨_, _, rfl, ?_, ?_, ?_, rfl⟩ <;>
    first
      | rfl
      | exact patch_length now record.recBytes
      | exact fun i hi => patch_getElem now record.recBytes hlen i hi
      | (intro i _; rfl)
      | (cases record; simp_all)

theorem prepareCall_patch_frame_witness :
    19 ≤ (Record.Prepare exampleNow exampleRecord).recBytes.length ∧
    ∃ logger' record',
      prepareCall .info lateNow (NewFastLogger exampleConfig)
        (Record.Prepare exampleNow exampleRecord) 22 = .ok (logger', record') ∧
      record'.recBytes.length = (Record.Prepare exampleNow exampleRecord).recBytes.length ∧
      (∀ i, 19 ≤ i →
        record'.recBytes[i]? = (Record.Prepare exampleNow exampleRecord).recBytes[i]?) ∧
      record' = { Record.Prepare exampleNow exampleRecord with recBytes := record'.recBytes } ∧
      logger'.logs Severity.info.channel =
        (NewFastLogger exampleConfig).logs Severity.info.channel ++ record'.recBytes :=
  ⟨by decide,
    prepareCall_patch_frame .info lateNow (NewFastLogger exampleConfig)
      (Record.Prepare exampleNow exampleRecord) 22 (by decide)⟩

/-! ## The published timestamp -/

/-- C10 at failing inputs: for two readings of the clock in the year 2024 the
refresher publishes values of different lengths, 16 bytes for 1 January,
01:01:01 and 20 bytes for 31 December, 23:59:59; only the second is a 19-byte
field followed by a space. -/
theorem refreshNow_width_varies :
    refreshNow 2024 1 1 1 1 1 = ascii "2024/1/1 1:1:01 " ∧
    (refreshNow 2024 1 1 1 1 1).length = 16 ∧
    refreshNow 2024 12 31 23 59 59 = ascii "2024/12/31 23:59:59 " ∧
    (refreshNow 2024 12 31 23 59 59).length = 20 := by
  decide

/-! ## Decimal text: the model of strconv against the specification -/

theorem charByte_digitChar (n : Nat) : charByte (Nat.digitChar (n % 10)) = digitByte n := by
  have h : n % 10 < 10 := Nat.mod_lt _ (by decide)
  unfold digitByte
  generalize n % 10 = d at h
  interval_cases d <;> rfl

theorem decimalAux_toDigitsCore (fuel n : Nat) (acc : List Char) :
    decimalAux fuel n (acc.map charByte) = (Nat.toDigitsCore 10 fuel n acc).map charByte := by
  induction fuel generalizing n acc with
  | zero => rfl
  | succ fuel ih =>
    simp only [decimalAux, Nat.toDigitsCore]
    split
    · simp [charByte_digitChar]
    · rw [← charByte_digitChar, ← List.map_cons, ih]

theorem formatUint_eq_dec (n : Nat) : formatUint n = dec n := by
  unfold formatUint dec Nat.toDigits
  exact decimalAux_toDigitsCore (n + 1) n []

theorem formatInt_eq_decInt (i : Int) : formatInt i = decInt i := by
  cases i with
  | ofNat n =>
    have h : ¬ (Int.ofNat n < 0) := by simp
    simp [formatInt, decInt, h, formatUint_eq_dec]
  | negSucc n =>
    have h : Int.negSucc n < 0 := Int.negSucc_lt_zero n
    simp [formatInt, decInt, h, formatUint_eq_dec, Int.natAbs]

theorem formatInt_natCast (n : Nat) : formatInt (n : Int) = dec n :=
  formatInt_eq_decInt (Int.ofNat n)

theorem padded_second (sec : Nat) (h : sec < 60) (buf : List Byte) :
    AppendInt (if (sec : Int) < 10 then buf ++ [48] else buf) (sec : Int) =
      buf ++ twoDigits sec := by
  have key : (if sec < 10 then [48] else []) ++ dec sec = twoDigits sec := by
    interval_cases sec <;> decide
  rw [← key]
  by_cases h10 : sec < 10
  · have h10' : (sec : Int) < 10 := by exact_mod_cast h10
    simp [AppendInt, formatInt_natCast, h10, h10']
  · have h10' : ¬ (sec : Int) < 10 := by exact_mod_cast h10
    simp [AppendInt, formatInt_natCast, h10, h10']

/-- C11: for every reading of the clock with a second between 0 and 59, the
value the refresher publishes is the unpadded decimal text of the year, a
slash, of the month, a slash, of the day, a space, of the hour, a colon, of
the minute, a colon, the second written with exactly two digits, and one
space. -/
theorem refreshNow_format (year month day hour min sec : Nat) (hsec : sec < 60) :
    refreshNow year month day hour min sec =
      dec year ++ [47] ++ dec month ++ [47] ++ dec day ++ [32] ++ dec hour ++ [58] ++
        dec min ++ [58] ++ twoDigits sec ++ [32] := by
  unfold refreshNow
  simp only [padded_second sec hsec]
  simp [AppendInt, formatInt_natCast]

theorem refreshNow_format_witness :
    4 < 60 ∧
    refreshNow (2024 : Nat) (3 : Nat) (5 : Nat) (9 : Nat) (7 : Nat) (4 : Nat) =
      dec 2024 ++ [47] ++ dec 3 ++ [47] ++ dec 5 ++ [32] ++ dec 9 ++ [58] ++
        dec 7 ++ [58] ++ twoDigits 4 ++ [32] :=
  ⟨by decide, refreshNow_format 2024 3 5 9 7 4 (by decide)⟩

/-- C12 at a failing input: at 09:07:04 on 5 March 2024 the published value
has the minute written as `7`, not `07`; only the second has its leading
zero. -/
theorem refreshNow_minute_not_padded :
    refreshNow 2024 3 5 9 7 4 = ascii "2024/3/5 9:7:04 " ∧
    refreshNow 2024 3 5 9 7 4 ≠ ascii "2024/3/5 9:07:04 " := by
  decide

/-! ## addArgsToLog against the specified text -/

theorem addArgsToLog_nil_text (args : List Arg) (h : ∀ a ∈ args, a.supported = true) :
    addArgsToLog [] args = .ok ((args.map Arg.text).flatten) := by
  induction args with
  | nil => rfl
  | cons a rest ih =>
    have hrest := ih (fun x hx => h x (List.mem_cons_of_mem _ hx))
    have ha := h a (List.mem_cons_self _ _)
    cases a with
    | other => simp [Arg.supported] at ha
    | bool b =>
      cases b <;>
        simp only [addArgsToLog, AppendBool, List.nil_append] <;>
        rw [addArgsToLog_append, hrest] <;>
        simp [Arg.text]
    | _ =>
      simp only [addArgsToLog, AppendInt, AppendUint, List.nil_append]
      rw [addArgsToLog_append, hrest]
      simp [Arg.text, formatInt_eq_decInt, formatUint_eq_dec]

theorem addArgsToLog_unsupported (args : List Arg) (buf : List Byte)
    (h : ∃ a ∈ args, a.supported = false) :
    addArgsToLog buf args = .error .typeAssertion := by
  induction args generalizing buf with
  | nil =>
    obtain ⟨a, ha, _⟩ := h
    cases ha
  | cons a rest ih =>
    cases a with
    | other => rfl
    | _ =>
      simp only [addArgsToLog]
      apply ih
      obtain ⟨x, hx, hs⟩ := h
      rcases List.mem_cons.mp hx with rfl | hx'
      · simp [Arg.supported] at hs
      · exact ⟨x, hx', hs⟩

/-- C13: for every buffer and every argument list of handled types,
addArgsToLog returns the buffer followed by the texts of the arguments, in
order and with nothing between them (a string or byte sequence verbatim, `true`
or `false`, the minimal base-10 representation of an integer), and AppendArgs
does the same on the payload of a record; addArgsToLog fails exactly when some
argument has a type outside the handled set. -/
theorem addArgsToLog_text (buf : List Byte) (args : List Arg) :
    ((∀ a ∈ args, a.supported = true) →
      addArgsToLog buf args = .ok (buf ++ (args.map Arg.text).flatten) ∧
      ∀ r : Record, r.recBytes = buf →
        r.AppendArgs args = .ok { r with recBytes := buf ++ (args.map Arg.text).flatten }) ∧
    ((∃ e, addArgsToLog buf args = .error e) ↔ ∃ a ∈ args, a.supported = false) := by
  have hok : (∀ a ∈ args, a.supported = true) →
      addArgsToLog buf args = .ok (buf ++ (args.map Arg.text).flatten) := by
    intro h
    rw [addArgsToLog_append, addArgsToLog_nil_text args h]
  refine ⟨fun h => ⟨hok h, fun r hr => ?_⟩, ?_, fun h => ⟨_, addArgsToLog_unsupported args buf h⟩⟩
  · subst hr
    simp [Record.AppendArgs, hok h]
  · rintro ⟨e, he⟩
    by_contra hne
    have hall : ∀ a ∈ args, a.supported = true := by
      intro a ha
      by_contra hs
      exact hne ⟨a, ha, by simpa using hs⟩
    rw [hok hall] at he
    cases he

theorem addArgsToLog_text_witness :
    (∀ a ∈ textArgs, a.supported = true) ∧
    addArgsToLog (ascii ">") textArgs =
      .ok (ascii ">" ++ (textArgs.map Arg.text).flatten) ∧
    (textArgs.map Arg.text).flatten = ascii "A-5200truezz92233720368547758070" :=
  ⟨by decide, ((addArgsToLog_text (ascii ">") textArgs).1 (by decide)).1, by decide⟩

/-! ## The record pool -/

theorem Record.wasGot_preserved (r : Record) (now p text : List Byte) (flag : Bool) :
    (r.Prefix p).wasGot = r.wasGot ∧ r.ShowDate.wasGot = r.wasGot ∧
    r.NoDate.wasGot = r.wasGot ∧ (r.AppendFormat text).wasGot = r.wasGot ∧
    (r.NewLine flag).wasGot = r.wasGot ∧ (Record.Build now r).wasGot = r.wasGot ∧
    (Record.Prepare now r).wasGot = r.wasGot ∧ r.Reset.wasGot = r.wasGot := by
  obtain ⟨pfx, sd, nl, rb, wg, wp⟩ := r
  refine ⟨rfl, rfl, rfl, rfl, rfl, ?_, ?_, rfl⟩
  · cases pfx <;> cases sd <;> cases nl <;> rfl
  · cases pfx <;> cases sd <;> cases nl <;> cases wp <;> rfl

theorem record_call_effect (logger : FastLogger) (r : Record) (pool : List Record) :
    logger.Record r pool =
      ({ logger with recordLogs := logger.recordLogs ++ r.recBytes }, r.Reset,
        if r.wasGot then r.Reset :: pool else pool) := by
  unfold FastLogger.Record
  cases h : r.wasGot <;> simp [Record.Reset, h]

/-- C14 at a failing input: the record that Builder() hands out on the empty
pool is the one NewBuilder() makes, with the pool marker false; after it is
filled, built and given to FastLogger.Record, its bytes are in the record
buffer and it is reset, but the pool is still empty: the record obtained via
Builder() is not put into the pool. -/
theorem Builder_record_not_pooled :
    Builder [] = (NewBuilder, []) ∧
    (Builder []).1.wasGot = false ∧
    (NewFastLogger exampleConfig).Record
        (Record.Build exampleNow ((Builder []).1.AppendFormat (ascii "x"))) (Builder []).2 =
      ({ NewFastLogger exampleConfig with recordLogs := ascii "2024/1/1 1:1:01 x\n" },
        NewBuilder, []) := by
  decide

/-! ## Flush when a writer panics -/

theorem Flush.recover_crashes (logger : FastLogger) (evs : List Event) (held : Channel)
    (v : PanicValue) (h : logger.fatalFunc = some .returns) :
    (Flush.recover logger evs held v).exit = .crashed ∧
    (Flush.recover logger evs held v).logger.recordLogs = logger.recordLogs ∧
    (Flush.recover logger evs held v).logger.rawLogs = logger.rawLogs ∧
    (Flush.recover logger evs held v).events = evs ++ [Event.fatalFunc v] := by
  cases held <;> simp [Flush.recover, unlock, h]

/-- C15 at failing inputs, with a fatal callback that returns. When the info
writer panics, the callback is called once with the panic value, the info and
error buffers are cut, and the second Unlock of the handler, on the error
mutex that Flush does not hold, stops the process; the record and raw buffers
still hold their lines. When the record writer panics, the first Unlock of the
handler, on the info mutex, stops the process, and the record and raw buffers
still hold their lines. -/
theorem Flush_sink_panic_with_callback :
    (loadedLogger callbackConfig).Flush infoSinkPanics =
      ⟨{ loadedLogger callbackConfig with infoLogs := [], errorLogs := [] },
        [Event.write (.writer 0) (ascii "a\n"), Event.fatalFunc (.custom 1)], .crashed⟩ ∧
    ((loadedLogger callbackConfig).Flush infoSinkPanics).logger.recordLogs = ascii "r\n" ∧
    ((loadedLogger callbackConfig).Flush infoSinkPanics).logger.rawLogs = ascii "w\n" ∧
    (loadedLogger callbackConfig).Flush recordSinkPanics =
      ⟨{ loadedLogger callbackConfig with infoLogs := [] },
        [Event.write (.writer 0) (ascii "a\n"), Event.write (.writer 5) (ascii "r\n"),
          Event.fatalFunc (.custom 1)], .crashed⟩ ∧
    ((loadedLogger callbackConfig).Flush recordSinkPanics).logger.recordLogs = ascii "r\n" ∧
    ((loadedLogger callbackConfig).Flush recordSinkPanics).logger.rawLogs = ascii "w\n" := by
  decide

theorem Flush_sink_error_silent :
    (loadedLogger exampleConfig).Flush infoSinkErrors =
      ⟨(loadedLogger exampleConfig).drained,
        [Event.write (.writer 0) (ascii "a\n"), Event.write (.writer 5) (ascii "r\n"),
          Event.write (.writer 6) (ascii "w\n")], .returned⟩ ∧
    sinkContent infoSinkErrors (.writer 0)
      ((loadedLogger exampleConfig).Flush infoSinkErrors).events = [] := by
  decide

/-- C16 at a failing input, with no fatal callback: when the info writer
panics, the handler of Flush calls the nil callback, so Flush ends with a panic
that reaches its caller; no buffer has been cut. -/
theorem Flush_sink_panic_without_callback :
    (loadedLogger exampleConfig).fatalFunc = none ∧
    (loadedLogger exampleConfig).Flush infoSinkPanics =
      ⟨loadedLogger exampleConfig, [Event.write (.writer 0) (ascii "a\n")],
        .panicked .nilFunc⟩ := by
  decide

/-! ## The refresher task -/

theorem Process.construct_after_publish (p : Process) (cfg : StandardLoggerConfig)
    (year month day hour min sec : Int) :
    ((p.publish year month day hour min sec).construct cfg).2.refreshers = p.refreshers := by
  simp [Process.construct, Process.publish, NewStandardLogger.startsRefresher, refreshNow]

/-- C17 at a failing input: NewStandardLogger followed by NewFastLogger before
any refresher has stored a value, as in example/main.go, starts two refresher
tasks; a construction after the first value has been stored starts none. -/
theorem two_constructions_two_refreshers :
    Process.start.refreshers = 0 ∧
    (Process.start.construct exampleConfig.StandardLoggerConfig).2.refreshers = 1 ∧
    (Process.start.construct exampleConfig.StandardLoggerConfig).2.now = [] ∧
    ((Process.start.construct exampleConfig.StandardLoggerConfig).2.constructFast
      exampleConfig).2.refreshers = 2 ∧
    ((((Process.start.construct exampleConfig.StandardLoggerConfig).2.publish
      2024 1 1 1 1 1).constructFast exampleConfig).2.refreshers = 1) := by
  decide

/-! ## Buffered against unbuffered logging -/

